import Mathlib

/-
Verification of the image-collection crawling subsystem of animate-coswap.

Shallow embedding of:
  * the CrawlTask lifecycle endpoints (backend/app/api/v1/catcher.py),
  * creation-time validation (backend/app/models/schemas.py, catcher.py),
  * the filter pipeline and retry/rate-limit engine
    (backend/app/services/catcher/base_crawler.py),
  * the paginated search loops
    (backend/app/services/catcher/danbooru_crawler.py, pixiv_crawler.py).

Machine integers are modelled as Int/Nat, wall-clock instants as ℚ,
fallible operations as Except/Option.  Network interaction is modelled by
an oracle giving the outcome of each attempt/page, and `asyncio.sleep`
durations are recorded in an explicit trace.
-/

namespace AnimateCoswap

/- ===================================================================
   CrawlTask lifecycle (backend/app/api/v1/catcher.py)
   =================================================================== -/

/-- Task status strings stored in `CrawlTask.status`. -/
inductive Status
  | pending
  | running
  | paused
  | completed
  | failed
deriving DecidableEq, Repr, Fintype

/-- The four externally requestable lifecycle operations. -/
inductive LifecycleOp
  | start
  | pause
  | resume
  | cancel
deriving DecidableEq, Repr

/-- The mutable fields of a `CrawlTask` ORM row that the lifecycle
endpoints can observe or touch.  Timestamps are rationals (wall-clock
seconds). -/
structure Task where
  status : Status
  images_collected : Int
  images_saved : Int
  images_filtered : Int
  progress : Int
  error_message : Option String
  started_at : Option ℚ
  paused_at : Option ℚ
  completed_at : Option ℚ
  created_at : ℚ
deriving DecidableEq, Repr

/-- The HTTP 400 rejection (`Cannot <op> task with status: <status>`),
carrying the current status and the requested operation. -/
structure InvalidStateTransition where
  current : Status
  requested : LifecycleOp
deriving DecidableEq, Repr

/-- POST /crawl-tasks/\x7btask_id\x7d/start: allowed from `pending` or
`paused`; sets status to `running` and stamps `started_at`. -/
def startTask (now : ℚ) (t : Task) : Except InvalidStateTransition Task :=
  if t.status = .pending ∨ t.status = .paused then
    .ok { t with status := .running, started_at := some now }
  else
    .error ⟨t.status, .start⟩

/-- POST /crawl-tasks/\x7btask_id\x7d/pause: allowed from `running`;
sets status to `paused` and stamps `paused_at`. -/
def pauseTask (now : ℚ) (t : Task) : Except InvalidStateTransition Task :=
  if t.status = .running then
    .ok { t with status := .paused, paused_at := some now }
  else
    .error ⟨t.status, .pause⟩

/-- POST /crawl-tasks/\x7btask_id\x7d/resume: allowed from `paused`;
sets status to `running` and clears `paused_at`. -/
def resumeTask (t : Task) : Except InvalidStateTransition Task :=
  if t.status = .paused then
    .ok { t with status := .running, paused_at := none }
  else
    .error ⟨t.status, .resume⟩

/-- POST /crawl-tasks/\x7btask_id\x7d/cancel: allowed from `running` or
`paused`; sets status to `failed`, records the cancellation message and
stamps `completed_at`. -/
def cancelTask (now : ℚ) (t : Task) : Except InvalidStateTransition Task :=
  if t.status = .running ∨ t.status = .paused then
    .ok { t with status := .failed,
                 error_message := some "Cancelled by user",
                 completed_at := some now }
  else
    .error ⟨t.status, .cancel⟩

/-- Dispatch of one requested lifecycle operation. -/
def applyOp (op : LifecycleOp) (now : ℚ) (t : Task) :
    Except InvalidStateTransition Task :=
  match op with
  | .start => startTask now t
  | .pause => pauseTask now t
  | .resume => resumeTask t
  | .cancel => cancelTask now t

/-- The transition table of spec §4.5 restricted to the four requestable
operations. -/
inductive Edge : Status → LifecycleOp → Status → Prop
  | start_pending : Edge .pending .start .running
  | start_paused : Edge .paused .start .running
  | pause_running : Edge .running .pause .paused
  | resume_paused : Edge .paused .resume .running
  | cancel_running : Edge .running .cancel .failed
  | cancel_paused : Edge .paused .cancel .failed

/-- Terminal statuses. -/
def Status.isTerminal (s : Status) : Bool :=
  s = .completed ∨ s = .failed

/- ===================================================================
   Filter pipeline (base_crawler.py: filter_couples, filter_by_resolution)
   =================================================================== -/

/-- Decidable rendering of spec §4.5's transition table. -/
def edgeTable : Status → LifecycleOp → Status → Bool := fun s op s' =>
  match op, s, s' with
  | .start, .pending, .running => true
  | .start, .paused, .running => true
  | .pause, .running, .paused => true
  | .resume, .paused, .running => true
  | .cancel, .running, .failed => true
  | .cancel, .paused, .failed => true
  | _, _, _ => false

/-- Precondition each endpoint checks before mutating anything. -/
def canApply : LifecycleOp → Status → Bool
  | .start, s => s = .pending ∨ s = .paused
  | .pause, s => s = .running
  | .resume, s => s = .paused
  | .cancel, s => s = .running ∨ s = .paused

/-- ImageMetadata as built by the crawlers (base_crawler.py).  The
`id` of the source (an MD5 hex digest of `url`) is kept abstract; see
`persistSurvivors` below. -/
structure ImageMetadata where
  url : String
  source : String
  title : Option String
  artist : Option String
  tags : List String
  width : Option Int
  height : Option Int
  file_size : Option Int
  face_count : Option Int
deriving DecidableEq, Repr

/-- Per-record keep decision of `filter_couples`: a record with unknown
`face_count` is kept, otherwise it is kept iff
`min_faces <= face_count <= max_faces`. -/
def couple_pred (min_faces max_faces : Int) (img : ImageMetadata) : Bool :=
  match img.face_count with
  | none => true
  | some fc => decide (min_faces ≤ fc ∧ fc ≤ max_faces)

/-- BaseCrawler.filter_couples: loop that appends each kept record in
input order. -/
def filter_couples : List ImageMetadata → Int → Int → List ImageMetadata
  | [], _, _ => []
  | img :: rest, min_faces, max_faces =>
    match img.face_count with
    | none => img :: filter_couples rest min_faces max_faces
    | some fc =>
      if min_faces ≤ fc ∧ fc ≤ max_faces then
        img :: filter_couples rest min_faces max_faces
      else
        filter_couples rest min_faces max_faces

/-- Per-record keep decision of `filter_by_resolution`: a record with
unknown width or height is kept, otherwise it is kept iff both
dimensions meet the minimum. -/
def resolution_pred (min_width min_height : Int) (img : ImageMetadata) : Bool :=
  match img.width, img.height with
  | some w, some h => decide (min_width ≤ w ∧ min_height ≤ h)
  | _, _ => true

/-- BaseCrawler.filter_by_resolution: loop that appends each kept record
in input order. -/
def filter_by_resolution : List ImageMetadata → Int → Int → List ImageMetadata
  | [], _, _ => []
  | img :: rest, min_width, min_height =>
    match img.width, img.height with
    | some w, some h =>
      if min_width ≤ w ∧ min_height ≤ h then
        img :: filter_by_resolution rest min_width min_height
      else
        filter_by_resolution rest min_width min_height
    | _, _ => img :: filter_by_resolution rest min_width min_height

/-- A freshly created task, as `create_crawl_task` persists it. -/
def sampleTask : Task :=
  { status := .pending
    images_collected := 0
    images_saved := 0
    images_filtered := 0
    progress := 0
    error_message := none
    started_at := none
    paused_at := none
    completed_at := none
    created_at := 0 }

/-- A paused task with a non-null `paused_at`. -/
def pausedSample : Task :=
  { sampleTask with status := .paused, paused_at := some 3 }

/-- The result of starting `pausedSample` at time 7. -/
def startedPausedSample : Task :=
  { pausedSample with status := .running, started_at := some 7 }

/- ===================================================================
   Task creation (schemas.py CrawlTaskCreate + catcher.py create_crawl_task)
   =================================================================== -/

/-- Request body of POST /crawl-tasks (schemas.py CrawlTaskCreate).
Filters are an unvalidated JSON object, modelled as key/value pairs. -/
structure CrawlTaskCreate where
  source_type : String
  search_query : String
  category : String
  filters : Option (List (String × String))
  limit : Int
deriving DecidableEq, Repr

/-- Creation-time rejection (pydantic 422 or the handler's HTTP 400),
carrying the human-readable detail. -/
structure ValidationError where
  detail : String
deriving DecidableEq, Repr

/-- Pydantic field constraints on CrawlTaskCreate: `search_query` has
min_length 1 and `limit` is constrained to ge 1, le 1000.  Returns the
first violated constraint, if any; this runs before the handler. -/
def validateCreate (req : CrawlTaskCreate) : Option String :=
  if req.search_query.length < 1 then some "search_query: min_length 1"
  else if req.limit < 1 then some "limit: must be >= 1"
  else if 1000 < req.limit then some "limit: must be <= 1000"
  else none

/-- The source types accepted by create_crawl_task. -/
def valid_sources : List String := ["pixiv", "danbooru", "gelbooru"]

/-- Python str.lower(), character-wise (the compared source-type
strings are ASCII). -/
def pyLower (s : String) : String := String.mk (s.data.map Char.toLower)

/-- A CrawlTask row as persisted by create_crawl_task: static
attributes plus the lifecycle fields. -/
structure CrawlTaskRecord where
  task_id : String
  source_type : String
  search_query : String
  category : String
  target_count : Int
  lifecycle : Task
deriving DecidableEq, Repr

/-- The row create_crawl_task persists: requested attributes with the
source type lowercased, target_count = limit, status pending, zeroed
counters, null timestamps. -/
def newCrawlRow (req : CrawlTaskCreate) (task_id : String) (now : ℚ) :
    CrawlTaskRecord :=
  { task_id := task_id
    source_type := pyLower req.source_type
    search_query := req.search_query
    category := req.category
    target_count := req.limit
    lifecycle :=
      { status := .pending
        images_collected := 0
        images_saved := 0
        images_filtered := 0
        progress := 0
        error_message := none
        started_at := none
        paused_at := none
        completed_at := none
        created_at := now } }

/-- POST /crawl-tasks: pydantic validation first, then the handler
rejects unknown source types (HTTP 400) before any task object exists;
otherwise it persists a row with status `pending` and zeroed
counters. -/
def create_crawl_task (req : CrawlTaskCreate) (task_id : String) (now : ℚ) :
    Except ValidationError CrawlTaskRecord :=
  match validateCreate req with
  | some d => .error ⟨d⟩
  | none =>
    if pyLower req.source_type ∈ valid_sources then
      .ok (newCrawlRow req task_id now)
    else
      .error ⟨"Invalid source_type. Must be one of: " ++
        String.intercalate ", " valid_sources⟩

/-- A request with in-range limit and known source but an empty
search_query. -/
def emptyQueryReq : CrawlTaskCreate :=
  { source_type := "danbooru"
    search_query := ""
    category := "acg"
    filters := none
    limit := 50 }

/-- A fully valid creation request. -/
def validReq : CrawlTaskCreate :=
  { source_type := "danbooru"
    search_query := "1boy_1girl"
    category := "acg"
    filters := none
    limit := 50 }

/-- The row create_crawl_task persists for `validReq`. -/
def validReqRecord : CrawlTaskRecord := newCrawlRow validReq "crawl_w" 0

/- ===================================================================
   Rate limiter (base_crawler.py BaseCrawler._rate_limit)
   =================================================================== -/

/-- One _rate_limit call.  `last` is `_last_request_time`, `now` the
first `datetime.now()` reading, `eps` the nonnegative extra time that
elapses past the requested sleep before the second `datetime.now()`
reading (sleep overshoot plus scheduler jitter).  If less than `delay`
has passed since `last`, the coroutine sleeps exactly the remaining
time; the returned value is the newly stamped dispatch time. -/
def rateLimitStamp (delay last now eps : ℚ) : ℚ :=
  if now - last < delay then now + (delay - (now - last)) + eps
  else now + eps

/-- N sequential acquire/_rate_limit calls on one instance: each call
supplies its own clock reading and jitter, and the stamped dispatch
times are threaded through `_last_request_time`. -/
def rateLimitRun (delay : ℚ) : ℚ → List (ℚ × ℚ) → List ℚ
  | _, [] => []
  | last, c :: rest =>
    let stamp := rateLimitStamp delay last c.1 c.2
    stamp :: rateLimitRun delay stamp rest

/- ===================================================================
   Fetch with retry (base_crawler.py BaseCrawler._fetch_with_retry)
   =================================================================== -/

/-- Classified result of one request attempt: an HTTP response with a
status code, an asyncio timeout, or any other transport exception. -/
inductive FetchOutcome
  | status (code : Nat)
  | timeout
  | transportError
deriving DecidableEq, Repr

/-- Sleeps issued inside the attempt body: a 429 response sleeps
2 ^ attempt seconds (exponential backoff); every other outcome issues
no sleep at this point. -/
def backoffSleeps (o : FetchOutcome) (attempt : Nat) : List Nat :=
  match o with
  | .status code => if code = 429 then [2 ^ attempt] else []
  | _ => []

/-- The common sleep at the bottom of the loop body: 1 * (attempt + 1)
seconds, issued only when another attempt remains. -/
def linearSleeps (attempt max_retries : Nat) : List Nat :=
  if attempt < max_retries - 1 then [attempt + 1] else []

/-- The retry loop `for attempt in range(max_retries)`, driven by an
oracle giving each attempt's outcome.  Returns the index of the attempt
whose response was returned (none if all retries failed) and, per
executed failed attempt, the list of sleep durations issued after it.
The second argument of the recursion is the number of remaining
attempts. -/
def fetchGo (out : Nat → FetchOutcome) (max_retries : Nat) :
    Nat → Nat → Option Nat × List (List Nat)
  | _, 0 => (none, [])
  | attempt, r + 1 =>
    if out attempt = .status 200 then (some attempt, [])
    else
      let rest := fetchGo out max_retries (attempt + 1) r
      (rest.1, (backoffSleeps (out attempt) attempt ++
        linearSleeps attempt max_retries) :: rest.2)

/-- BaseCrawler._fetch_with_retry with its default max_retries = 3
exposed as a parameter. -/
def fetch_with_retry (out : Nat → FetchOutcome) (max_retries : Nat) :
    Option Nat × List (List Nat) :=
  fetchGo out max_retries 0 max_retries

/-- An oracle whose first attempt is rate-limited (429) and whose
second succeeds. -/
def outcome429then200 : Nat → FetchOutcome :=
  fun a => if a = 0 then .status 429 else .status 200

/- ===================================================================
   Dedupe / persistence of CollectedImage rows
   =================================================================== -/

/-- One persisted CollectedImage row, keeping the fields the dedupe
invariant is about. -/
structure CollectedImageRow where
  source_url : String
  dedupe_key : String
deriving DecidableEq, Repr

/-- Modelled from the spec: the orchestrator loop of §4.6 that persists
CollectedImage rows is absent from src (start_crawl_task only flips the
status; the spec's §9 records this implementation gap).  Per the spec it
"deduplicates within the task by content hash of sourceURL (at-most-once
persistence per URL per task), persists a CollectedImage row for
survivors".  `hash` abstracts the deterministic content hash (src
computes ImageMetadata.id = md5(url) in base_crawler.py). -/
def persistGo (hash : String → String) :
    List ImageMetadata → List CollectedImageRow → List CollectedImageRow
  | [], acc => acc
  | r :: rest, acc =>
    if hash r.url ∈ acc.map (fun row => row.dedupe_key) then
      persistGo hash rest acc
    else
      persistGo hash rest (acc ++ [⟨r.url, hash r.url⟩])

/-- Rows persisted for one task from the adapter's yielded records. -/
def persistSurvivors (hash : String → String)
    (records : List ImageMetadata) : List CollectedImageRow :=
  persistGo hash records []

/-- Minimal metadata record with a given source URL. -/
def mkSimpleMeta (url : String) : ImageMetadata :=
  { url := url
    source := "danbooru"
    title := none
    artist := none
    tags := []
    width := none
    height := none
    file_size := none
    face_count := none }

/-- Two records with the same sourceURL, as one task's adapter might
yield them. -/
def dupRecords : List ImageMetadata :=
  [mkSimpleMeta "http://img/1.png", mkSimpleMeta "http://img/1.png"]

/- ===================================================================
   Paginated search loops (danbooru_crawler.py, pixiv_crawler.py)
   =================================================================== -/

/-- Outcome of fetching and parsing one page: the fetch returned None
after its retries, an exception escaped mid-iteration (e.g. while
parsing the body), or a list of parsed posts. -/
inductive PageResult (α : Type)
  | fetchFail
  | raise
  | posts (ps : List α)
deriving DecidableEq, Repr

/-- The fields DanbooruCrawler.search reads from one posts.json
entry. -/
structure DanbooruPost where
  file_url : Option String
  tag_string : String
  image_width : Option Int
  image_height : Option Int
  file_size : Option Int
  score : Option Int
  rating : Option String
deriving DecidableEq, Repr

/-- Python str.split() keeping only nonempty whitespace-separated
pieces (an empty tag_string yields no tags). -/
def pySplit (s : String) : List String :=
  (s.split Char.isWhitespace).filter (fun t => t ≠ "")

/-- Relative file URLs are prefixed with the crawler's base_url. -/
def absolutizeUrl (base u : String) : String :=
  if u.startsWith "/" then base ++ u else u

/-- The file-extension filter: skip a post whose url does not end in
".<file_ext>" when the filter is present. -/
def extMatches (file_ext : Option String) (u : String) : Bool :=
  match file_ext with
  | none => true
  | some e => u.endsWith ("." ++ e)

/-- ImageMetadata built from a Danbooru post. -/
def danbooruMeta (p : DanbooruPost) (u : String) : ImageMetadata :=
  { url := u
    source := "danbooru"
    title := none
    artist := none
    tags := pySplit p.tag_string
    width := p.image_width
    height := p.image_height
    file_size := p.file_size
    face_count := none }

/-- Inner loop of DanbooruCrawler.search over one page: stop at limit,
skip posts without file_url, absolutize, apply the extension filter,
append survivors in order. -/
def danbooruProcessPosts (base : String) (file_ext : Option String)
    (limit : Nat) :
    List DanbooruPost → List ImageMetadata → List ImageMetadata
  | [], acc => acc
  | p :: rest, acc =>
    if limit ≤ acc.length then acc
    else
      match p.file_url with
      | none => danbooruProcessPosts base file_ext limit rest acc
      | some u0 =>
        if extMatches file_ext (absolutizeUrl base u0) then
          danbooruProcessPosts base file_ext limit rest
            (acc ++ [danbooruMeta p (absolutizeUrl base u0)])
        else
          danbooruProcessPosts base file_ext limit rest acc

/-- The page loop of DanbooruCrawler.search: while fewer than limit
results, fetch page (starting at 1); stop on fetch failure, on a caught
exception, on an empty page, or once the next page number exceeds the
safety ceiling of 100.  Returns the results and the number of page
fetches dispatched.  The fuel argument only bounds the recursion; the
wrapper supplies enough for the loop's own ceiling. -/
def danbooruGo (pages : Nat → PageResult DanbooruPost) (base : String)
    (file_ext : Option String) (limit : Nat) :
    Nat → Nat → List ImageMetadata → Nat → List ImageMetadata × Nat
  | 0, _, acc, fetches => (acc, fetches)
  | fuel + 1, page, acc, fetches =>
    if acc.length < limit then
      match pages page with
      | .fetchFail => (acc, fetches + 1)
      | .raise => (acc, fetches + 1)
      | .posts ps =>
        if ps.isEmpty then (acc, fetches + 1)
        else
          if 100 < page + 1 then
            (danbooruProcessPosts base file_ext limit ps acc, fetches + 1)
          else
            danbooruGo pages base file_ext limit fuel (page + 1)
              (danbooruProcessPosts base file_ext limit ps acc)
              (fetches + 1)
    else (acc, fetches)

/-- DanbooruCrawler.search. -/
def danbooru_search (pages : Nat → PageResult DanbooruPost)
    (base : String) (file_ext : Option String) (limit : Nat) :
    List ImageMetadata × Nat :=
  danbooruGo pages base file_ext limit 100 1 [] 0

/-- The fields GelbooruCrawler.search reads from one post. -/
structure GelbooruPost where
  file_url : Option String
  tags : String
  width : Option Int
  height : Option Int
  score : Option Int
  rating : Option String
deriving DecidableEq, Repr

/-- ImageMetadata built from a Gelbooru post (no absolutizing, no
extension filter). -/
def gelbooruMeta (p : GelbooruPost) (u : String) : ImageMetadata :=
  { url := u
    source := "gelbooru"
    title := none
    artist := none
    tags := pySplit p.tags
    width := p.width
    height := p.height
    file_size := none
    face_count := none }

/-- Inner loop of GelbooruCrawler.search over one page. -/
def gelbooruProcessPosts (limit : Nat) :
    List GelbooruPost → List ImageMetadata → List ImageMetadata
  | [], acc => acc
  | p :: rest, acc =>
    if limit ≤ acc.length then acc
    else
      match p.file_url with
      | none => gelbooruProcessPosts limit rest acc
      | some u => gelbooruProcessPosts limit rest (acc ++ [gelbooruMeta p u])

/-- The page loop of GelbooruCrawler.search: pid starts at 0 and the
break fires only once pid exceeds 100, so pids 0..100 (101 pages) can
be fetched. -/
def gelbooruGo (pages : Nat → PageResult GelbooruPost) (limit : Nat) :
    Nat → Nat → List ImageMetadata → Nat → List ImageMetadata × Nat
  | 0, _, acc, fetches => (acc, fetches)
  | fuel + 1, pid, acc, fetches =>
    if acc.length < limit then
      match pages pid with
      | .fetchFail => (acc, fetches + 1)
      | .raise => (acc, fetches + 1)
      | .posts ps =>
        if ps.isEmpty then (acc, fetches + 1)
        else
          if 100 < pid + 1 then
            (gelbooruProcessPosts limit ps acc, fetches + 1)
          else
            gelbooruGo pages limit fuel (pid + 1)
              (gelbooruProcessPosts limit ps acc) (fetches + 1)
    else (acc, fetches)

/-- GelbooruCrawler.search. -/
def gelbooru_search (pages : Nat → PageResult GelbooruPost)
    (limit : Nat) : List ImageMetadata × Nat :=
  gelbooruGo pages limit 101 0 [] 0

/-- The fields PixivCrawler.search reads from one illustration. -/
structure PixivIllust where
  total_bookmarks : Int
  large_url : Option String
  medium_url : Option String
  square_medium_url : Option String
  title : Option String
  artist_name : Option String
  tag_names : List String
  width : Option Int
  height : Option Int
deriving DecidableEq, Repr

/-- Outcome of one Pixiv search page: fetch failure, caught exception,
or a page of illustrations together with whether next_url was
present. -/
inductive PixivPageResult
  | fetchFail
  | raise
  | page (illusts : List PixivIllust) (has_next : Bool)
deriving DecidableEq, Repr

/-- URL choice: large, else medium, else square_medium. -/
def pixivUrl (i : PixivIllust) : Option String :=
  (i.large_url.orElse fun _ => i.medium_url).orElse
    fun _ => i.square_medium_url

/-- ImageMetadata built from a Pixiv illustration. -/
def pixivMeta (i : PixivIllust) (u : String) : ImageMetadata :=
  { url := u
    source := "pixiv"
    title := i.title
    artist := i.artist_name
    tags := i.tag_names
    width := i.width
    height := i.height
    file_size := none
    face_count := none }

/-- Inner loop of PixivCrawler.search over one page: stop at limit,
skip illustrations below min_bookmarks or without a usable URL. -/
def pixivProcessIllusts (min_bookmarks : Int) (limit : Nat) :
    List PixivIllust → List ImageMetadata → List ImageMetadata
  | [], acc => acc
  | i :: rest, acc =>
    if limit ≤ acc.length then acc
    else if i.total_bookmarks < min_bookmarks then
      pixivProcessIllusts min_bookmarks limit rest acc
    else
      match pixivUrl i with
      | none => pixivProcessIllusts min_bookmarks limit rest acc
      | some u =>
        pixivProcessIllusts min_bookmarks limit rest (acc ++ [pixivMeta i u])

/-- The page loop of PixivCrawler.search: while fewer than limit
results, fetch the next page; stop on fetch failure, caught exception,
empty page, or missing next_url.  There is no page ceiling in the
source, so the loop is bounded only by the model's fuel.  Returns
results and the number of page fetches dispatched. -/
def pixivGo (pages : Nat → PixivPageResult) (min_bookmarks : Int)
    (limit : Nat) : Nat → Nat → List ImageMetadata → Nat →
    List ImageMetadata × Nat
  | 0, _, acc, fetches => (acc, fetches)
  | fuel + 1, k, acc, fetches =>
    if acc.length < limit then
      match pages k with
      | .fetchFail => (acc, fetches + 1)
      | .raise => (acc, fetches + 1)
      | .page illusts has_next =>
        if illusts.isEmpty then (acc, fetches + 1)
        else
          if has_next then
            pixivGo pages min_bookmarks limit fuel (k + 1)
              (pixivProcessIllusts min_bookmarks limit illusts acc)
              (fetches + 1)
          else
            (pixivProcessIllusts min_bookmarks limit illusts acc,
              fetches + 1)
    else (acc, fetches)

/-- PixivCrawler.search: returns [] without fetching when
authentication fails. -/
def pixiv_search (pages : Nat → PixivPageResult) (authenticated : Bool)
    (min_bookmarks : Int) (limit : Nat) (fuel : Nat) :
    List ImageMetadata × Nat :=
  if authenticated then pixivGo pages min_bookmarks limit fuel 0 [] 0
  else ([], 0)

/-- Replacing a caught exception by a clean fetch failure. -/
def catchRaise {α : Type} (pr : PageResult α) : PageResult α :=
  match pr with
  | .raise => .fetchFail
  | x => x

/-- Replacing a caught exception by a clean fetch failure (Pixiv). -/
def pixivCatchRaise (pr : PixivPageResult) : PixivPageResult :=
  match pr with
  | .raise => .fetchFail
  | x => x

/-- A Gelbooru post carrying no file_url (it is skipped, so results
never accumulate). -/
def junkGelbooruPost : GelbooruPost :=
  { file_url := none
    tags := ""
    width := none
    height := none
    score := none
    rating := none }

/-- A Gelbooru oracle serving an endless stream of skipped posts. -/
def junkGelbooruPages : Nat → PageResult GelbooruPost :=
  fun _ => .posts [junkGelbooruPost]

/-- A Pixiv illustration without any usable image URL (skipped). -/
def junkPixivIllust : PixivIllust :=
  { total_bookmarks := 0
    large_url := none
    medium_url := none
    square_medium_url := none
    title := none
    artist_name := none
    tag_names := []
    width := none
    height := none }

/-- A Pixiv oracle serving endless nonempty pages of skipped
illustrations, always with a next_url. -/
def junkPixivPages : Nat → PixivPageResult :=
  fun _ => .page [junkPixivIllust] true

theorem filter_couples_eq_filter (images : List ImageMetadata)
    (min_faces max_faces : Int) :
    filter_couples images min_faces max_faces =
      images.filter (couple_pred min_faces max_faces) := by
  induction images with
  | nil => rfl
  | cons img rest ih =>
    simp only [filter_couples, List.filter, couple_pred]
    cases h : img.face_count with
    | none => simp [ih]
    | some fc =>
      by_cases hb : min_faces ≤ fc ∧ fc ≤ max_faces
      · simp [hb, ih]
      · simp [hb, ih]

theorem filter_by_resolution_eq_filter (images : List ImageMetadata)
    (min_width min_height : Int) :
    filter_by_resolution images min_width min_height =
      images.filter (resolution_pred min_width min_height) := by
  induction images with
  | nil => rfl
  | cons img rest ih =>
    simp only [filter_by_resolution, List.filter, resolution_pred]
    cases hw : img.width with
    | none => simp [ih]
    | some w =>
      cases hh : img.height with
      | none => simp [ih]
      | some h =>
        by_cases hb : min_width ≤ w ∧ min_height ≤ h
        · simp [hb, ih]
        · simp [hb, ih]

/-- C5: filter_couples keeps a record iff its face_count is unknown or
within [min_faces, max_faces], and filter_by_resolution keeps a record
iff its width or height is unknown or both dimensions meet the minima;
a record with an unknown field value is never dropped. -/
theorem filters_keep_iff_in_bounds_or_unknown
    (images : List ImageMetadata) (min_faces max_faces : Int)
    (min_width min_height : Int) (img : ImageMetadata) :
    (img ∈ filter_couples images min_faces max_faces ↔
      img ∈ images ∧ (img.face_count = none ∨
        ∃ fc, img.face_count = some fc ∧ min_faces ≤ fc ∧ fc ≤ max_faces)) ∧
    (img ∈ filter_by_resolution images min_width min_height ↔
      img ∈ images ∧ (img.width = none ∨ img.height = none ∨
        ∃ w h, img.width = some w ∧ img.height = some h ∧
          min_width ≤ w ∧ min_height ≤ h)) := by
  constructor
  · rw [filter_couples_eq_filter, List.mem_filter]
    constructor
    · rintro ⟨hm, hp⟩
      refine ⟨hm, ?_⟩
      unfold couple_pred at hp
      cases h : img.face_count with
      | none => exact Or.inl rfl
      | some fc =>
        rw [h] at hp
        exact Or.inr ⟨fc, rfl, of_decide_eq_true hp⟩
    · rintro ⟨hm, hc⟩
      refine ⟨hm, ?_⟩
      unfold couple_pred
      rcases hc with h | ⟨fc, hfc, hb⟩
      · rw [h]
      · rw [hfc]
        exact decide_eq_true hb
  · rw [filter_by_resolution_eq_filter, List.mem_filter]
    constructor
    · rintro ⟨hm, hp⟩
      refine ⟨hm, ?_⟩
      unfold resolution_pred at hp
      cases hw : img.width with
      | none => exact Or.inl rfl
      | some w =>
        cases hh : img.height with
        | none => exact Or.inr (Or.inl rfl)
        | some h =>
          rw [hw, hh] at hp
          exact Or.inr (Or.inr ⟨w, h, rfl, rfl, of_decide_eq_true hp⟩)
    · rintro ⟨hm, hc⟩
      refine ⟨hm, ?_⟩
      unfold resolution_pred
      rcases hc with h | h | ⟨w, h, hw, hh, hb⟩
      · rw [h]
      · rw [h]
        cases img.width <;> rfl
      · rw [hw, hh]
        exact decide_eq_true hb

/-- C6: both filters are order-preserving (the output is a sublist of
the input), idempotent (for all bounds, in particular min=max=2), and
they commute; purity is by construction, as both are Lean functions of
their arguments alone. -/
theorem filters_sublist_idempotent_commute
    (images : List ImageMetadata) (min_faces max_faces : Int)
    (min_width min_height : Int) :
    (filter_couples images min_faces max_faces).Sublist images ∧
    (filter_by_resolution images min_width min_height).Sublist images ∧
    filter_couples (filter_couples images min_faces max_faces)
      min_faces max_faces = filter_couples images min_faces max_faces ∧
    filter_couples (filter_couples images 2 2) 2 2 =
      filter_couples images 2 2 ∧
    filter_by_resolution (filter_by_resolution images min_width min_height)
      min_width min_height = filter_by_resolution images min_width min_height ∧
    filter_by_resolution (filter_couples images min_faces max_faces)
      min_width min_height =
      filter_couples (filter_by_resolution images min_width min_height)
        min_faces max_faces := by
  refine ⟨?_, ?_, ?_, ?_, ?_, ?_⟩
  · rw [filter_couples_eq_filter]
    exact List.filter_sublist images
  · rw [filter_by_resolution_eq_filter]
    exact List.filter_sublist images
  · simp only [filter_couples_eq_filter, List.filter_filter]
    apply List.filter_congr
    intro x _
    rw [Bool.and_self]
  · simp only [filter_couples_eq_filter, List.filter_filter]
    apply List.filter_congr
    intro x _
    rw [Bool.and_self]
  · simp only [filter_by_resolution_eq_filter, List.filter_filter]
    apply List.filter_congr
    intro x _
    rw [Bool.and_self]
  · simp only [filter_couples_eq_filter, filter_by_resolution_eq_filter,
      List.filter_filter]
    apply List.filter_congr
    intro x _
    rw [Bool.and_comm]

/-- C1: every successful lifecycle operation moves the status along an
edge of the §4.5 table; a requested operation whose precondition fails
(equivalently, for which the table has no edge from the current status)
is rejected with InvalidStateTransition carrying the current status and
the requested operation, and yields no updated task (no field is
mutated); a terminal task (completed or failed) rejects every
operation. -/
theorem lifecycle_transitions_follow_table (op : LifecycleOp) (now : ℚ)
    (t : Task) :
    (∀ t', applyOp op now t = .ok t' → edgeTable t.status op t'.status = true) ∧
    ((∃ t', applyOp op now t = .ok t') ↔ canApply op t.status = true) ∧
    (canApply op t.status = true ↔ ∃ s', edgeTable t.status op s' = true) ∧
    (canApply op t.status = false →
      applyOp op now t = .error ⟨t.status, op⟩) ∧
    (t.status.isTerminal = true →
      applyOp op now t = .error ⟨t.status, op⟩) := by
  refine ⟨?_, ?_, ?_, ?_, ?_⟩
  · intro t' h'
    cases op <;> revert h' <;> cases hs : t.status <;>
      simp [applyOp, startTask, pauseTask, resumeTask, cancelTask, hs] <;>
      rintro rfl <;> rfl
  · cases op <;> cases hs : t.status <;>
      simp [applyOp, startTask, pauseTask, resumeTask, cancelTask,
        canApply, hs]
  · cases op <;> cases hs : t.status <;> decide
  · cases op <;> cases hs : t.status <;>
      simp [applyOp, startTask, pauseTask, resumeTask, cancelTask,
        canApply, hs]
  · cases op <;> cases hs : t.status <;>
      simp [applyOp, startTask, pauseTask, resumeTask, cancelTask,
        Status.isTerminal, hs]

/-- C1 witness: pausing a pending task is rejected with
InvalidStateTransition, and starting a pending task succeeds along a
table edge. -/
theorem lifecycle_transitions_follow_table_witness :
    applyOp .pause 5 sampleTask = .error ⟨.pending, .pause⟩ ∧
    edgeTable .pending .start .running = true :=
  ⟨(lifecycle_transitions_follow_table .pause 5 sampleTask).2.2.2.1 rfl,
   (lifecycle_transitions_follow_table .start 5 sampleTask).1
     { sampleTask with status := .running, started_at := some 5 } rfl⟩

/-- C10: a successful start mutates only `status` and `started_at`; all
counters, progress, error_message, paused_at, completed_at and
created_at are unchanged (so starting a paused task keeps its non-null
paused_at), and among the lifecycle operations only resume ever turns a
non-null paused_at into null. -/
theorem start_mutates_only_status_and_startedAt (now : ℚ) (t t' : Task) :
    (startTask now t = .ok t' →
      t'.status = .running ∧ t'.started_at = some now ∧
      t'.paused_at = t.paused_at ∧ t'.completed_at = t.completed_at ∧
      t'.error_message = t.error_message ∧
      t'.images_collected = t.images_collected ∧
      t'.images_saved = t.images_saved ∧
      t'.images_filtered = t.images_filtered ∧
      t'.progress = t.progress ∧ t'.created_at = t.created_at) ∧
    (∀ op, applyOp op now t = .ok t' → t.paused_at ≠ none →
      t'.paused_at = none → op = .resume) := by
  constructor
  · intro h
    by_cases hc : t.status = .pending ∨ t.status = .paused
    · simp only [startTask, if_pos hc] at h
      cases h
      simp
    · simp only [startTask, if_neg hc] at h
      cases h
  · intro op h hpa hpa'
    cases op with
    | start =>
      by_cases hc : t.status = .pending ∨ t.status = .paused
      · simp only [applyOp, startTask, if_pos hc] at h
        cases h
        simp only at hpa'
        exact absurd hpa' hpa
      · simp only [applyOp, startTask, if_neg hc] at h
        cases h
    | pause =>
      by_cases hc : t.status = .running
      · simp only [applyOp, pauseTask, if_pos hc] at h
        cases h
        simp at hpa'
      · simp only [applyOp, pauseTask, if_neg hc] at h
        cases h
    | resume => rfl
    | cancel =>
      by_cases hc : t.status = .running ∨ t.status = .paused
      · simp only [applyOp, cancelTask, if_pos hc] at h
        cases h
        simp only at hpa'
        exact absurd hpa' hpa
      · simp only [applyOp, cancelTask, if_neg hc] at h
        cases h

/-- C10 witness: starting the paused sample task at time 7 leaves its
paused_at equal to its previous non-null value (some 3). -/
theorem start_mutates_only_status_and_startedAt_witness :
    startedPausedSample.paused_at = pausedSample.paused_at ∧
    startedPausedSample.paused_at = some 3 := by
  have h :=
    (start_mutates_only_status_and_startedAt 7 pausedSample
      startedPausedSample).1 rfl
  exact ⟨h.2.2.1, h.2.2.1.trans rfl⟩

theorem rateLimitStamp_ge (delay last now eps : ℚ) (h : 0 ≤ eps) :
    last + delay ≤ rateLimitStamp delay last now eps := by
  unfold rateLimitStamp
  split
  · linarith
  · next h' =>
    push_neg at h'
    linarith

theorem rateLimitRun_head_ge (delay last : ℚ) (calls : List (ℚ × ℚ))
    (heps : ∀ c ∈ calls, 0 ≤ c.2) :
    ∀ s ∈ (rateLimitRun delay last calls).head?, last + delay ≤ s := by
  cases calls with
  | nil => simp [rateLimitRun]
  | cons c rest =>
    simp only [rateLimitRun, List.head?_cons, Option.mem_def,
      Option.some.injEq]
    rintro s rfl
    exact rateLimitStamp_ge delay last c.1 c.2 (heps c (by simp))

/-- C4 counterexample: a request with limit 50 (in range) and known
source "danbooru" but empty search_query is rejected at creation time
(pydantic min_length), so an otherwise in-range request does not always
create a task. -/
theorem create_task_rejects_empty_query_despite_in_range :
    (1 ≤ emptyQueryReq.limit ∧ emptyQueryReq.limit ≤ 1000 ∧
      pyLower emptyQueryReq.source_type ∈ valid_sources) ∧
    create_crawl_task emptyQueryReq "crawl_x" 0 =
      .error ⟨"search_query: min_length 1"⟩ := by
  exact ⟨⟨by decide, by decide, by decide⟩, rfl⟩

/-- C4 (amended): any request with limit outside [1,1000] or unknown
source_type is rejected with a ValidationError and no CrawlTask row is
produced; every accepted request had an in-range limit and a known
source and yields a row with status pending and target_count = limit;
every request with in-range limit, known source_type, and a nonempty
search_query is accepted. -/
theorem create_task_validates_before_creating
    (req : CrawlTaskCreate) (task_id : String) (now : ℚ) :
    ((req.limit < 1 ∨ 1000 < req.limit ∨
        pyLower req.source_type ∉ valid_sources) →
      ∃ e, create_crawl_task req task_id now = .error e) ∧
    (∀ rec, create_crawl_task req task_id now = .ok rec →
      1 ≤ req.limit ∧ req.limit ≤ 1000 ∧
      pyLower req.source_type ∈ valid_sources ∧
      rec.lifecycle.status = .pending ∧ rec.target_count = req.limit) ∧
    (1 ≤ req.limit → req.limit ≤ 1000 →
      pyLower req.source_type ∈ valid_sources →
      1 ≤ req.search_query.length →
      create_crawl_task req task_id now = .ok (newCrawlRow req task_id now) ∧
        (newCrawlRow req task_id now).lifecycle.status = .pending ∧
        (newCrawlRow req task_id now).target_count = req.limit) := by
  refine ⟨?_, ?_, ?_⟩
  · intro hbad
    unfold create_crawl_task validateCreate
    rcases hbad with h | h | h
    · by_cases hq : req.search_query.length < 1
      · simp [hq]
      · simp [hq, h]
    · by_cases hq : req.search_query.length < 1
      · simp [hq]
      · have h1 : ¬ req.limit < 1 := by omega
        simp [hq, h1, h]
    · by_cases hq : req.search_query.length < 1
      · simp [hq]
      · by_cases h1 : req.limit < 1
        · simp [hq, h1]
        · by_cases h2 : 1000 < req.limit
          · simp [hq, h1, h2]
          · simp [hq, h1, h2, h]
  · intro rec hok
    unfold create_crawl_task validateCreate at hok
    by_cases hq : req.search_query.length < 1
    · simp [hq] at hok
    · by_cases h1 : req.limit < 1
      · simp [hq, h1] at hok
      · by_cases h2 : 1000 < req.limit
        · simp [hq, h1, h2] at hok
        · by_cases hs : pyLower req.source_type ∈ valid_sources
          · simp only [hq, h1, h2, hs, if_true, if_false, if_neg,
              if_pos] at hok
            injection hok with h
            subst h
            exact ⟨by omega, by omega, hs, rfl, rfl⟩
          · simp [hq, h1, h2, hs] at hok
  · intro h1 h2 hs hq
    have hq' : ¬ req.search_query.length < 1 := by omega
    have h1' : ¬ req.limit < 1 := by omega
    have h2' : ¬ 1000 < req.limit := by omega
    refine ⟨?_, rfl, rfl⟩
    unfold create_crawl_task validateCreate
    simp [hq', h1', h2', hs]

/-- C4 witness: the valid sample request (danbooru, "1boy_1girl",
limit 50) is accepted and its persisted row is pending with
target_count 50. -/
theorem create_task_validates_before_creating_witness :
    1 ≤ validReq.limit ∧ validReq.limit ≤ 1000 ∧
    pyLower validReq.source_type ∈ valid_sources ∧
    validReqRecord.lifecycle.status = .pending ∧
    validReqRecord.target_count = validReq.limit :=
  (create_task_validates_before_creating validReq "crawl_w" 0).2.1
    validReqRecord rfl

/-- C7: for any number of sequential _rate_limit calls on one limiter
instance, as long as each call's jitter is nonnegative, consecutive
stamped dispatch times are at least `delay` apart. -/
theorem rate_limiter_gap_at_least_delay (delay init : ℚ)
    (calls : List (ℚ × ℚ)) (heps : ∀ c ∈ calls, 0 ≤ c.2) :
    (rateLimitRun delay init calls).Chain' (fun a b => a + delay ≤ b) := by
  induction calls generalizing init with
  | nil => simp [rateLimitRun]
  | cons c rest ih =>
    simp only [rateLimitRun]
    rw [List.chain'_cons']
    constructor
    · exact rateLimitRun_head_ge delay _ rest
        (fun x hx => heps x (by simp [hx]))
    · exact ih _ (fun x hx => heps x (by simp [hx]))

/-- C7 witness: with delay 2, initial stamp 0 and clock readings 1, 10,
11 (no jitter), the dispatch stamps are 2, 10, 12 and consecutive
stamps are at least 2 apart. -/
theorem rate_limiter_gap_at_least_delay_witness :
    rateLimitRun 2 0 [(1, 0), (10, 0), (11, 0)] = [2, 10, 12] ∧
    (rateLimitRun 2 0 [(1, 0), (10, 0), (11, 0)]).Chain'
      (fun a b => a + 2 ≤ b) :=
  ⟨by norm_num [rateLimitRun, rateLimitStamp],
   rate_limiter_gap_at_least_delay 2 0 [(1, 0), (10, 0), (11, 0)]
     (by norm_num)⟩

theorem fetchGo_success (out : Nat → FetchOutcome) (n : Nat) :
    ∀ r a k, a ≤ k → k < a + r → out k = .status 200 →
      (∀ j, a ≤ j → j < k → out j ≠ .status 200) →
      (fetchGo out n a r).1 = some k := by
  intro r
  induction r with
  | zero => intro a k hak hk; omega
  | succ r ih =>
    intro a k hak hk hsucc hbefore
    by_cases ha : out a = .status 200
    · have hka : k = a := by
        by_contra hne
        exact hbefore a le_rfl (lt_of_le_of_ne hak (Ne.symm hne)) ha
      subst hka
      simp [fetchGo, ha]
    · have hak' : a + 1 ≤ k := by
        rcases eq_or_lt_of_le hak with rfl | h
        · exact absurd hsucc ha
        · omega
      simp only [fetchGo, if_neg ha]
      exact ih (a + 1) k hak' (by omega) hsucc
        (fun j hj1 hj2 => hbefore j (by omega) hj2)

theorem fetchGo_gap (out : Nat → FetchOutcome) (n : Nat) :
    ∀ r a i, i < r → (∀ j, a ≤ j → j ≤ a + i → out j ≠ .status 200) →
      (fetchGo out n a r).2.get? i =
        some (backoffSleeps (out (a + i)) (a + i) ++
          linearSleeps (a + i) n) := by
  intro r
  induction r with
  | zero => intro a i hi; omega
  | succ r ih =>
    intro a i hi hfail
    have ha : out a ≠ .status 200 := hfail a le_rfl (by omega)
    simp only [fetchGo, if_neg ha]
    cases i with
    | zero => simp
    | succ i' =>
      have harr : a + 1 + i' = a + (i' + 1) := by omega
      have := ih (a + 1) i' (by omega)
        (fun j hj1 hj2 => hfail j (by omega) (by omega))
      rw [harr] at this
      simpa using this

theorem fetchGo_exhaust (out : Nat → FetchOutcome) (n : Nat) :
    ∀ r a, (∀ j, a ≤ j → j < a + r → out j ≠ .status 200) →
      (fetchGo out n a r).1 = none := by
  intro r
  induction r with
  | zero => intro a _; rfl
  | succ r ih =>
    intro a hfail
    have ha : out a ≠ .status 200 := hfail a le_rfl (by omega)
    simp only [fetchGo, if_neg ha]
    exact ih (a + 1) (fun j hj1 hj2 => hfail j (by omega) (by omega))

theorem backoffSleeps_of_ne_429 (o : FetchOutcome) (attempt : Nat)
    (h : o ≠ .status 429) : backoffSleeps o attempt = [] := by
  cases o with
  | status code =>
    have : code ≠ 429 := fun hc => h (by rw [hc])
    simp [backoffSleeps, this]
  | timeout => rfl
  | transportError => rfl

/-- C2 counterexample: with max_retries = 3 and a first attempt that
receives 429, the loop sleeps 2 ^ 0 = 1 second of backoff AND the
common 1 * (0 + 1) = 1 second before the next attempt, a total of 2
seconds, not exactly 2 ^ 0; the claim's schedule is therefore wrong for
429. -/
theorem fetch_retry_429_sleeps_more_than_backoff :
    fetch_with_retry outcome429then200 3 = (some 1, [[1, 1]]) ∧
    ([1, 1] : List Nat).sum = 2 ∧ (2 : Nat) ≠ 2 ^ 0 := by
  exact ⟨rfl, rfl, by decide⟩

/-- C2 (amended): an attempt returning 200 makes fetch return that
response; a failed attempt i followed by another attempt sleeps a total
of 2 ^ i + (i + 1) seconds when it received 429 (exponential backoff
plus the unconditional linear sleep) and i + 1 seconds otherwise
(other non-2xx status, timeout, or transport error); exhausting all
max_retries attempts returns None, which carries neither the url nor
the last status. -/
theorem fetch_retry_schedule (out : Nat → FetchOutcome) (n : Nat) :
    (∀ k, k < n → out k = .status 200 →
      (∀ j, j < k → out j ≠ .status 200) →
      (fetch_with_retry out n).1 = some k) ∧
    (∀ i, i + 1 < n → (∀ j, j ≤ i → out j ≠ .status 200) →
      out i = .status 429 →
      ((fetch_with_retry out n).2.get? i).map List.sum =
        some (2 ^ i + (i + 1))) ∧
    (∀ i, i + 1 < n → (∀ j, j ≤ i → out j ≠ .status 200) →
      out i ≠ .status 429 →
      ((fetch_with_retry out n).2.get? i).map List.sum = some (i + 1)) ∧
    ((∀ j, j < n → out j ≠ .status 200) →
      (fetch_with_retry out n).1 = none) := by
  refine ⟨?_, ?_, ?_, ?_⟩
  · intro k hk hsucc hbefore
    exact fetchGo_success out n n 0 k (Nat.zero_le k) (by omega) hsucc
      (fun j _ hj2 => hbefore j hj2)
  · intro i hi hfail h429
    have hgap := fetchGo_gap out n n 0 i (by omega)
      (fun j _ hj2 => hfail j (by omega))
    simp only [Nat.zero_add] at hgap
    rw [fetch_with_retry, hgap]
    have hlin : linearSleeps i n = [i + 1] := by
      unfold linearSleeps
      rw [if_pos (by omega)]
    rw [h429, hlin]
    simp [backoffSleeps]
  · intro i hi hfail hne
    have hgap := fetchGo_gap out n n 0 i (by omega)
      (fun j _ hj2 => hfail j (by omega))
    simp only [Nat.zero_add] at hgap
    rw [fetch_with_retry, hgap]
    have hlin : linearSleeps i n = [i + 1] := by
      unfold linearSleeps
      rw [if_pos (by omega)]
    rw [backoffSleeps_of_ne_429 (out i) i hne, hlin]
    simp
  · intro hfail
    exact fetchGo_exhaust out n n 0 (fun j _ hj2 => hfail j (by omega))

/-- C2 witness: the 429-then-200 oracle's first gap sums to
2 ^ 0 + 1 = 2 seconds, and an oracle always answering 500 exhausts the
3 retries and returns None. -/
theorem fetch_retry_schedule_witness :
    ((fetch_with_retry outcome429then200 3).2.get? 0).map List.sum =
      some (2 ^ 0 + (0 + 1)) ∧
    (fetch_with_retry (fun _ => .status 500) 3).1 = none :=
  ⟨(fetch_retry_schedule outcome429then200 3).2.1 0 (by decide)
      (fun j hj => by
        have hj0 : j = 0 := Nat.le_zero.mp hj
        subst hj0
        decide)
      (by decide),
   (fetch_retry_schedule (fun _ => .status 500) 3).2.2.2
      (fun j _ => by decide)⟩

theorem persistGo_keys_sub (hash : String → String) :
    ∀ (records : List ImageMetadata) (acc : List CollectedImageRow)
      (k : String),
      k ∈ acc.map (fun row => row.dedupe_key) →
      k ∈ (persistGo hash records acc).map (fun row => row.dedupe_key) := by
  intro records
  induction records with
  | nil => intro acc k hk; exact hk
  | cons r rest ih =>
    intro acc k hk
    unfold persistGo
    split
    · exact ih acc k hk
    · exact ih (acc ++ [⟨r.url, hash r.url⟩]) k (by simp [hk])

theorem persistGo_adds (hash : String → String) :
    ∀ (records : List ImageMetadata) (acc : List CollectedImageRow)
      (r : ImageMetadata), r ∈ records →
      hash r.url ∈
        (persistGo hash records acc).map (fun row => row.dedupe_key) := by
  intro records
  induction records with
  | nil => intro acc r hr; cases hr
  | cons r0 rest ih =>
    intro acc r hr
    unfold persistGo
    rcases List.mem_cons.mp hr with rfl | hr'
    · split
      · next hmem => exact persistGo_keys_sub hash rest acc _ hmem
      · exact persistGo_keys_sub hash rest _ _ (by simp)
    · split
      · exact ih acc r hr'
      · exact ih _ r hr'

theorem persistGo_keys_nodup (hash : String → String) :
    ∀ (records : List ImageMetadata) (acc : List CollectedImageRow),
      (acc.map (fun row => row.dedupe_key)).Nodup →
      ((persistGo hash records acc).map
        (fun row => row.dedupe_key)).Nodup := by
  intro records
  induction records with
  | nil => intro acc h; exact h
  | cons r rest ih =>
    intro acc h
    unfold persistGo
    split
    · exact ih acc h
    · next hmem =>
      apply ih
      rw [List.map_append, List.nodup_append]
      exact ⟨h, by simp, by
        intro k hk hk'
        simp only [List.map_cons, List.map_nil, List.mem_singleton] at hk'
        subst hk'
        exact hmem hk⟩

/-- C3 (spec-modelled): in the persisted CollectedImage rows of one
task, the dedupe keys (deterministic hash of sourceURL) are pairwise
distinct, and any sourceURL yielded by the adapter — in particular one
yielded twice — accounts for exactly one persisted row with its key. -/
theorem collected_images_dedupe_key_unique (hash : String → String)
    (records : List ImageMetadata) (u : String) :
    ((persistSurvivors hash records).map
      (fun row => row.dedupe_key)).Nodup ∧
    (u ∈ records.map (fun r => r.url) →
      ((persistSurvivors hash records).map
        (fun row => row.dedupe_key)).count (hash u) = 1) := by
  constructor
  · exact persistGo_keys_nodup hash records [] (by simp)
  · intro hu
    rcases List.mem_map.mp hu with ⟨r, hr, hru⟩
    subst hru
    exact List.count_eq_one_of_mem
      (persistGo_keys_nodup hash records [] (by simp))
      (persistGo_adds hash records [] r hr)

/-- C3 witness: an adapter yielding the same URL twice results in
exactly one persisted row whose dedupe key is that URL's hash
(instantiated with the identity as the deterministic hash). -/
theorem collected_images_dedupe_key_unique_witness :
    "http://img/1.png" ∈ dupRecords.map (fun r => r.url) ∧
    ((persistSurvivors id dupRecords).map
      (fun row => row.dedupe_key)).count (id "http://img/1.png") = 1 :=
  ⟨by decide,
   (collected_images_dedupe_key_unique id dupRecords
      "http://img/1.png").2 (by decide)⟩

theorem danbooruProcessPosts_length_le (base : String)
    (ext : Option String) (limit : Nat) :
    ∀ (ps : List DanbooruPost) (acc : List ImageMetadata),
      acc.length ≤ limit →
      (danbooruProcessPosts base ext limit ps acc).length ≤ limit := by
  intro ps
  induction ps with
  | nil => intro acc h; exact h
  | cons p rest ih =>
    intro acc h
    by_cases hl : limit ≤ acc.length
    · simp only [danbooruProcessPosts, if_pos hl]
      exact h
    · cases hp : p.file_url with
      | none =>
        simp only [danbooruProcessPosts, if_neg hl, hp]
        exact ih acc h
      | some u0 =>
        simp only [danbooruProcessPosts, if_neg hl, hp]
        by_cases he : extMatches ext (absolutizeUrl base u0) = true
        · rw [if_pos he]
          refine ih _ ?_
          simp only [List.length_append, List.length_cons,
            List.length_nil]
          omega
        · rw [if_neg he]
          exact ih acc h

theorem danbooruGo_length_le (pages : Nat → PageResult DanbooruPost)
    (base : String) (ext : Option String) (limit : Nat) :
    ∀ (fuel page : Nat) (acc : List ImageMetadata) (fetches : Nat),
      acc.length ≤ limit →
      (danbooruGo pages base ext limit fuel page acc fetches).1.length ≤
        limit := by
  intro fuel
  induction fuel with
  | zero => intro page acc fetches h; exact h
  | succ fuel ih =>
    intro page acc fetches h
    simp only [danbooruGo]
    by_cases hl : acc.length < limit
    · rw [if_pos hl]
      split
      · exact h
      · exact h
      · next ps heq =>
        split
        · exact h
        · split
          · exact danbooruProcessPosts_length_le base ext limit ps acc h
          · exact ih (page + 1) _ (fetches + 1)
              (danbooruProcessPosts_length_le base ext limit ps acc h)
    · rw [if_neg hl]
      exact h

theorem danbooruGo_fetches_le (pages : Nat → PageResult DanbooruPost)
    (base : String) (ext : Option String) (limit : Nat) :
    ∀ (fuel page : Nat) (acc : List ImageMetadata) (fetches : Nat),
      page ≤ 100 →
      (danbooruGo pages base ext limit fuel page acc fetches).2 ≤
        fetches + (101 - page) := by
  intro fuel
  induction fuel with
  | zero => intro page acc fetches _; exact Nat.le_add_right _ _
  | succ fuel ih =>
    intro page acc fetches hpage
    simp only [danbooruGo]
    by_cases hl : acc.length < limit
    · rw [if_pos hl]
      split
      · omega
      · omega
      · next ps heq =>
        split
        · omega
        · split
          · omega
          · next hpg =>
            refine le_trans (ih (page + 1) _ (fetches + 1) (by omega)) ?_
            omega
    · rw [if_neg hl]
      exact Nat.le_add_right _ _

theorem danbooruGo_stop_at_limit (pages : Nat → PageResult DanbooruPost)
    (base : String) (ext : Option String) (limit : Nat)
    (fuel page : Nat) (acc : List ImageMetadata) (fetches : Nat)
    (h : limit ≤ acc.length) :
    danbooruGo pages base ext limit fuel page acc fetches =
      (acc, fetches) := by
  cases fuel with
  | zero => rfl
  | succ fuel => simp only [danbooruGo, if_neg (not_lt.mpr h)]

theorem gelbooruProcessPosts_length_le (limit : Nat) :
    ∀ (ps : List GelbooruPost) (acc : List ImageMetadata),
      acc.length ≤ limit →
      (gelbooruProcessPosts limit ps acc).length ≤ limit := by
  intro ps
  induction ps with
  | nil => intro acc h; exact h
  | cons p rest ih =>
    intro acc h
    by_cases hl : limit ≤ acc.length
    · simp only [gelbooruProcessPosts, if_pos hl]
      exact h
    · cases hp : p.file_url with
      | none =>
        simp only [gelbooruProcessPosts, if_neg hl, hp]
        exact ih acc h
      | some u =>
        simp only [gelbooruProcessPosts, if_neg hl, hp]
        refine ih _ ?_
        simp only [List.length_append, List.length_cons, List.length_nil]
        omega

theorem gelbooruGo_length_le (pages : Nat → PageResult GelbooruPost)
    (limit : Nat) :
    ∀ (fuel pid : Nat) (acc : List ImageMetadata) (fetches : Nat),
      acc.length ≤ limit →
      (gelbooruGo pages limit fuel pid acc fetches).1.length ≤ limit := by
  intro fuel
  induction fuel with
  | zero => intro pid acc fetches h; exact h
  | succ fuel ih =>
    intro pid acc fetches h
    simp only [gelbooruGo]
    by_cases hl : acc.length < limit
    · rw [if_pos hl]
      split
      · exact h
      · exact h
      · next ps heq =>
        split
        · exact h
        · split
          · exact gelbooruProcessPosts_length_le limit ps acc h
          · exact ih (pid + 1) _ (fetches + 1)
              (gelbooruProcessPosts_length_le limit ps acc h)
    · rw [if_neg hl]
      exact h

theorem gelbooruGo_fetches_le (pages : Nat → PageResult GelbooruPost)
    (limit : Nat) :
    ∀ (fuel pid : Nat) (acc : List ImageMetadata) (fetches : Nat),
      pid ≤ 100 →
      (gelbooruGo pages limit fuel pid acc fetches).2 ≤
        fetches + (101 - pid) := by
  intro fuel
  induction fuel with
  | zero => intro pid acc fetches _; exact Nat.le_add_right _ _
  | succ fuel ih =>
    intro pid acc fetches hpid
    simp only [gelbooruGo]
    by_cases hl : acc.length < limit
    · rw [if_pos hl]
      split
      · omega
      · omega
      · next ps heq =>
        split
        · omega
        · split
          · omega
          · next hpg =>
            refine le_trans (ih (pid + 1) _ (fetches + 1) (by omega)) ?_
            omega
    · rw [if_neg hl]
      exact Nat.le_add_right _ _

theorem pixivProcessIllusts_length_le (mb : Int) (limit : Nat) :
    ∀ (il : List PixivIllust) (acc : List ImageMetadata),
      acc.length ≤ limit →
      (pixivProcessIllusts mb limit il acc).length ≤ limit := by
  intro il
  induction il with
  | nil => intro acc h; exact h
  | cons i rest ih =>
    intro acc h
    by_cases hl : limit ≤ acc.length
    · simp only [pixivProcessIllusts, if_pos hl]
      exact h
    · by_cases hb : i.total_bookmarks < mb
      · simp only [pixivProcessIllusts, if_neg hl, if_pos hb]
        exact ih acc h
      · cases hp : pixivUrl i with
        | none =>
          simp only [pixivProcessIllusts, if_neg hl, if_neg hb, hp]
          exact ih acc h
        | some u =>
          simp only [pixivProcessIllusts, if_neg hl, if_neg hb, hp]
          refine ih _ ?_
          simp only [List.length_append, List.length_cons,
            List.length_nil]
          omega

theorem pixivGo_length_le (pages : Nat → PixivPageResult) (mb : Int)
    (limit : Nat) :
    ∀ (fuel k : Nat) (acc : List ImageMetadata) (fetches : Nat),
      acc.length ≤ limit →
      (pixivGo pages mb limit fuel k acc fetches).1.length ≤ limit := by
  intro fuel
  induction fuel with
  | zero => intro k acc fetches h; exact h
  | succ fuel ih =>
    intro k acc fetches h
    simp only [pixivGo]
    by_cases hl : acc.length < limit
    · rw [if_pos hl]
      split
      · exact h
      · exact h
      · next il hn heq =>
        split
        · exact h
        · split
          · exact ih (k + 1) _ (fetches + 1)
              (pixivProcessIllusts_length_le mb limit il acc h)
          · exact pixivProcessIllusts_length_le mb limit il acc h
    · rw [if_neg hl]
      exact h

theorem pixivGo_junk_fetches (f : Nat) :
    ∀ (k fetches : Nat),
      (pixivGo junkPixivPages 100 5 f k [] fetches).2 = fetches + f := by
  induction f with
  | zero => intro k fetches; rfl
  | succ f ih =>
    intro k fetches
    have hstep : pixivGo junkPixivPages 100 5 (f + 1) k [] fetches =
        pixivGo junkPixivPages 100 5 f (k + 1) [] (fetches + 1) := by
      simp only [pixivGo, junkPixivPages]
      rfl
    rw [hstep, ih (k + 1) (fetches + 1)]
    omega

theorem danbooruGo_catchRaise (pages : Nat → PageResult DanbooruPost)
    (base : String) (ext : Option String) (limit : Nat) :
    ∀ (fuel page : Nat) (acc : List ImageMetadata) (fetches : Nat),
      danbooruGo (fun p => catchRaise (pages p)) base ext limit fuel page
        acc fetches =
      danbooruGo pages base ext limit fuel page acc fetches := by
  intro fuel
  induction fuel with
  | zero => intro page acc fetches; rfl
  | succ fuel ih =>
    intro page acc fetches
    simp only [danbooruGo]
    by_cases hl : acc.length < limit
    · rw [if_pos hl, if_pos hl]
      cases hp : pages page with
      | fetchFail => simp [hp, catchRaise]
      | raise => simp [hp, catchRaise]
      | posts ps =>
        simp only [hp, catchRaise]
        by_cases hemp : ps.isEmpty = true
        · rw [if_pos hemp, if_pos hemp]
        · rw [if_neg hemp, if_neg hemp]
          by_cases hpg : 100 < page + 1
          · rw [if_pos hpg, if_pos hpg]
          · rw [if_neg hpg, if_neg hpg]
            exact ih (page + 1) _ (fetches + 1)
    · rw [if_neg hl, if_neg hl]

theorem gelbooruGo_catchRaise (pages : Nat → PageResult GelbooruPost)
    (limit : Nat) :
    ∀ (fuel pid : Nat) (acc : List ImageMetadata) (fetches : Nat),
      gelbooruGo (fun p => catchRaise (pages p)) limit fuel pid acc
        fetches =
      gelbooruGo pages limit fuel pid acc fetches := by
  intro fuel
  induction fuel with
  | zero => intro pid acc fetches; rfl
  | succ fuel ih =>
    intro pid acc fetches
    simp only [gelbooruGo]
    by_cases hl : acc.length < limit
    · rw [if_pos hl, if_pos hl]
      cases hp : pages pid with
      | fetchFail => simp [hp, catchRaise]
      | raise => simp [hp, catchRaise]
      | posts ps =>
        simp only [hp, catchRaise]
        by_cases hemp : ps.isEmpty = true
        · rw [if_pos hemp, if_pos hemp]
        · rw [if_neg hemp, if_neg hemp]
          by_cases hpg : 100 < pid + 1
          · rw [if_pos hpg, if_pos hpg]
          · rw [if_neg hpg, if_neg hpg]
            exact ih (pid + 1) _ (fetches + 1)
    · rw [if_neg hl, if_neg hl]

theorem pixivGo_catchRaise (pages : Nat → PixivPageResult) (mb : Int)
    (limit : Nat) :
    ∀ (fuel k : Nat) (acc : List ImageMetadata) (fetches : Nat),
      pixivGo (fun p => pixivCatchRaise (pages p)) mb limit fuel k acc
        fetches =
      pixivGo pages mb limit fuel k acc fetches := by
  intro fuel
  induction fuel with
  | zero => intro k acc fetches; rfl
  | succ fuel ih =>
    intro k acc fetches
    simp only [pixivGo]
    by_cases hl : acc.length < limit
    · rw [if_pos hl, if_pos hl]
      cases hp : pages k with
      | fetchFail => simp [hp, pixivCatchRaise]
      | raise => simp [hp, pixivCatchRaise]
      | page il hn =>
        simp only [hp, pixivCatchRaise]
        by_cases hemp : il.isEmpty = true
        · rw [if_pos hemp, if_pos hemp]
        · rw [if_neg hemp, if_neg hemp]
          by_cases hn' : hn = true
          · rw [if_pos hn', if_pos hn']
            exact ih (k + 1) _ (fetches + 1)
          · rw [if_neg hn', if_neg hn']
    · rw [if_neg hl, if_neg hl]

theorem danbooruGo_empty_page (pages : Nat → PageResult DanbooruPost)
    (base : String) (ext : Option String) (limit fuel page : Nat)
    (acc : List ImageMetadata) (fetches : Nat)
    (hl : acc.length < limit) (hp : pages page = .posts []) :
    danbooruGo pages base ext limit (fuel + 1) page acc fetches =
      (acc, fetches + 1) := by
  simp only [danbooruGo, if_pos hl, hp]
  rfl

theorem gelbooruGo_empty_page (pages : Nat → PageResult GelbooruPost)
    (limit fuel pid : Nat) (acc : List ImageMetadata) (fetches : Nat)
    (hl : acc.length < limit) (hp : pages pid = .posts []) :
    gelbooruGo pages limit (fuel + 1) pid acc fetches =
      (acc, fetches + 1) := by
  simp only [gelbooruGo, if_pos hl, hp]
  rfl

/-- C8 counterexample: the Gelbooru page loop starts counting at pid 0
yet breaks only when pid exceeds 100, so an oracle that keeps serving
nonempty pages whose posts all lack file_url makes it dispatch 101 page
fetches, exceeding the claimed 100-page ceiling. -/
theorem gelbooru_search_fetches_101_pages :
    (gelbooru_search junkGelbooruPages 5).2 = 101 ∧
    ¬ ((gelbooru_search junkGelbooruPages 5).2 ≤ 100) := by
  constructor
  · rfl
  · intro h
    rw [show (gelbooru_search junkGelbooruPages 5).2 = 101 from rfl] at h
    omega

/-- C8 (amended): each search loop returns at most limit records and
stops as soon as limit records are accumulated or the upstream returns
an empty page; the Danbooru loop dispatches at most 100 page fetches
but the Gelbooru loop (pid 0..100) dispatches at most 101, and the
Pixiv loop has no page ceiling at all: an oracle that keeps serving
nonempty pages of skipped illustrations with a next_url makes it fetch
one page per unit of fuel, without bound. -/
theorem search_bounded_results_and_pages
    (dpages : Nat → PageResult DanbooruPost)
    (gpages : Nat → PageResult GelbooruPost)
    (ppages : Nat → PixivPageResult) (base : String)
    (file_ext : Option String) (min_bookmarks : Int) (limit : Nat)
    (pfuel : Nat) :
    (danbooru_search dpages base file_ext limit).1.length ≤ limit ∧
    (danbooru_search dpages base file_ext limit).2 ≤ 100 ∧
    (∀ fuel page acc fetches, limit ≤ acc.length →
      danbooruGo dpages base file_ext limit fuel page acc fetches =
        (acc, fetches)) ∧
    (0 < limit → dpages 1 = .posts [] →
      danbooru_search dpages base file_ext limit = ([], 1)) ∧
    (gelbooru_search gpages limit).1.length ≤ limit ∧
    (gelbooru_search gpages limit).2 ≤ 101 ∧
    (0 < limit → gpages 0 = .posts [] →
      gelbooru_search gpages limit = ([], 1)) ∧
    (pixiv_search ppages true min_bookmarks limit pfuel).1.length ≤
      limit ∧
    (∀ f, (pixivGo junkPixivPages 100 5 f 0 [] 0).2 = f) := by
  refine ⟨?_, ?_, ?_, ?_, ?_, ?_, ?_, ?_, ?_⟩
  · exact danbooruGo_length_le dpages base file_ext limit 100 1 [] 0
      (by simp)
  · exact le_trans
      (danbooruGo_fetches_le dpages base file_ext limit 100 1 [] 0
        (by omega))
      (by omega)
  · intro fuel page acc fetches h
    exact danbooruGo_stop_at_limit dpages base file_ext limit fuel page
      acc fetches h
  · intro hlim hp
    exact danbooruGo_empty_page dpages base file_ext limit 99 1 [] 0
      (by simpa using hlim) hp
  · exact gelbooruGo_length_le gpages limit 101 0 [] 0 (by simp)
  · exact le_trans
      (gelbooruGo_fetches_le gpages limit 101 0 [] 0 (by omega))
      (by omega)
  · intro hlim hp
    exact gelbooruGo_empty_page gpages limit 100 0 [] 0
      (by simpa using hlim) hp
  · unfold pixiv_search
    rw [if_pos rfl]
    exact pixivGo_length_le ppages min_bookmarks limit pfuel 0 [] 0
      (by simp)
  · intro f
    exact (pixivGo_junk_fetches f 0 0).trans (by omega)

/-- C8 witness: oracles answering an empty first page make both the
Danbooru and the Gelbooru loops stop after exactly one page fetch with
no results. -/
theorem search_bounded_results_and_pages_witness :
    danbooru_search (fun _ => PageResult.posts [])
      "https://danbooru.donmai.us" none 5 = ([], 1) ∧
    gelbooru_search (fun _ => PageResult.posts []) 5 = ([], 1) :=
  ⟨(search_bounded_results_and_pages (fun _ => PageResult.posts [])
      (fun _ => PageResult.posts []) (fun _ => PixivPageResult.fetchFail)
      "https://danbooru.donmai.us" none 100 5 0).2.2.2.1
      (by decide) rfl,
   (search_bounded_results_and_pages (fun _ => PageResult.posts [])
      (fun _ => PageResult.posts []) (fun _ => PixivPageResult.fetchFail)
      "https://danbooru.donmai.us" none 100 5 0).2.2.2.2.2.2.1
      (by decide) rfl⟩

/-- C9: a page whose fetch raises mid-pagination hands the caller
exactly the records accumulated so far (shown directly for the
Danbooru loop), and all three adapters' loops behave identically
whether an exception is raised or the fetch cleanly fails — the
exception never propagates, the caller always receives the (possibly
partial, possibly empty) accumulated list. -/
theorem search_returns_partial_on_exception
    (dpages : Nat → PageResult DanbooruPost)
    (gpages : Nat → PageResult GelbooruPost)
    (ppages : Nat → PixivPageResult) (base : String)
    (file_ext : Option String) (min_bookmarks : Int) (limit : Nat)
    (auth : Bool) (fuel : Nat) :
    (∀ f page acc fetches, dpages page = .raise → acc.length < limit →
      danbooruGo dpages base file_ext limit (f + 1) page acc fetches =
        (acc, fetches + 1)) ∧
    danbooru_search (fun p => catchRaise (dpages p)) base file_ext
        limit =
      danbooru_search dpages base file_ext limit ∧
    gelbooru_search (fun p => catchRaise (gpages p)) limit =
      gelbooru_search gpages limit ∧
    pixiv_search (fun p => pixivCatchRaise (ppages p)) auth
        min_bookmarks limit fuel =
      pixiv_search ppages auth min_bookmarks limit fuel := by
  refine ⟨?_, ?_, ?_, ?_⟩
  · intro f page acc fetches hp hl
    simp only [danbooruGo, if_pos hl, hp]
  · exact danbooruGo_catchRaise dpages base file_ext limit 100 1 [] 0
  · exact gelbooruGo_catchRaise gpages limit 101 0 [] 0
  · unfold pixiv_search
    cases auth with
    | false => rfl
    | true =>
      rw [if_pos rfl, if_pos rfl]
      exact pixivGo_catchRaise ppages min_bookmarks limit fuel 0 [] 0

/-- C9 witness: an oracle raising on the very first Danbooru page makes
search return the empty accumulated list after one fetch. -/
theorem search_returns_partial_on_exception_witness :
    danbooruGo (fun _ => PageResult.raise) "https://danbooru.donmai.us"
      none 5 100 1 [] 0 = ([], 1) :=
  (search_returns_partial_on_exception (fun _ => PageResult.raise)
    (fun _ => PageResult.fetchFail) (fun _ => PixivPageResult.fetchFail)
    "https://danbooru.donmai.us" none 100 5 true 0).1 99 1 [] 0 rfl
    (by decide)

end AnimateCoswap
